import Mathlib

set_option maxRecDepth 10000

/-!
Verification of the plantmobile platform driver, light controller and
button handler against their natural-language specification.

The Python sources are shallowly embedded: pure functions become Lean
functions over ℤ/ℕ/ℚ, the stateful movement loop becomes explicit state
passing with a structural fuel argument mirroring the bounded `for` loop,
and fallible code returns `Option`/`Except`.  Python `int(...)` applied to
a quotient is truncation toward zero.  Where a claim depends on the exact
value of a `float` computation (`get_diff_percent`), the IEEE-754 binary64
arithmetic is embedded exactly: `fl` below is correctly-rounded
round-to-nearest, ties-to-even over ℚ, valid on the normal range (the
values reached here neither underflow nor overflow).  Elsewhere (aggregator
means, voltage comparisons) exact arithmetic is used, where rounding cannot
affect the stated property.
-/

namespace Plantmobile

/-- Truncation of a rational toward zero, the behaviour of the Python
`int(...)` cast applied to a quotient. -/
def ratTrunc (q : ℚ) : ℤ := if 0 ≤ q then ⌊q⌋ else ⌈q⌉

/-- Embeds `Region` (common.py:58-67): `UNKNOWN = None`, `OUTER_EDGE = 0`,
`MID = 50`, `INNER_EDGE = 100`. -/
inductive Region where
  | UNKNOWN
  | OUTER_EDGE
  | MID
  | INNER_EDGE
deriving DecidableEq

/-- The `value` of each `Region` enum member; `UNKNOWN` carries `None`. -/
def Region.value : Region → Option ℤ
  | .UNKNOWN => none
  | .OUTER_EDGE => some 0
  | .MID => some 50
  | .INNER_EDGE => some 100

/-- Embeds `Region.size()` (common.py:65-67):
`abs(INNER_EDGE.value - OUTER_EDGE.value) = 100`. -/
def Region.size : ℕ := 100

/-- Embeds `Rotation` (common.py:70-73). -/
inductive Rotation where
  | CW
  | CCW
deriving DecidableEq

/-- Embeds `Direction` (common.py:76-87): `OUTER = -1`, `INNER = +1`. -/
inductive Direction where
  | OUTER
  | INNER
deriving DecidableEq

/-- The signed unit value of each `Direction` enum member. -/
def Direction.value : Direction → ℤ
  | .OUTER => -1
  | .INNER => 1

/-- Embeds `Direction.motor_rotation` (common.py:81-83). -/
def Direction.motor_rotation : Direction → Rotation
  | .OUTER => .CCW
  | .INNER => .CW

/-- Embeds `Direction.extreme_edge` (common.py:85-87). -/
def Direction.extreme_edge : Direction → Region
  | .OUTER => .OUTER_EDGE
  | .INNER => .INNER_EDGE

/-- Rounding a rational to the nearest integer, ties to even — the
rounding of an IEEE-754 significand. -/
def roundEven (q : ℚ) : ℤ :=
  if q - ⌊q⌋ < 1/2 then ⌊q⌋
  else if 1/2 < q - ⌊q⌋ then ⌊q⌋ + 1
  else if Even ⌊q⌋ then ⌊q⌋ else ⌊q⌋ + 1

/-- The binary64 exponent of `q`: scaling by `2 ^ (-exp2 q)` puts the
significand of a nonzero `q` in `[2^52, 2^53)`. -/
def exp2 (q : ℚ) : ℤ := Int.log 2 |q| - 52

/-- Correctly rounded conversion of an exact rational to IEEE-754 binary64
(round-to-nearest, ties-to-even), as an exact rational again.  Valid on
the normal range: subnormals and overflow are not modelled, and none of
the values computed by `get_diff_percent` at the magnitudes considered
here reach them. -/
def fl (q : ℚ) : ℚ :=
  if q = 0 then 0
  else (roundEven (q / (2 : ℚ) ^ exp2 q) : ℚ) * (2 : ℚ) ^ exp2 q

/-- Embeds `get_diff_percent` (common.py:52-55) including its binary64
arithmetic: `np.mean((outer, inner))` converts both values to doubles,
adds them and halves (each step correctly rounded, hence `fl`);
`int(...)` truncates toward zero; `diff/avg` is CPython's correctly
rounded true division of the exact integers, and `* 100` a correctly
rounded double product. -/
def get_diff_percent (outer inner : ℤ) : ℤ :=
  let mean : ℚ := fl (fl (fl (outer : ℚ) + fl (inner : ℚ)) / 2)
  let avg : ℤ := ratTrunc mean
  let diff : ℤ := inner - outer
  if avg ≠ 0 then ratTrunc (fl (fl ((diff : ℚ) / (avg : ℚ)) * 100)) else 0

/-- The amended formula for `diff_percent`: the toward-zero truncation of
the correctly rounded double product `fl(fl(diff/avg) * 100)`, where
`avg` is the toward-zero truncation of `(outer + inner) / 2` — the float
averaging is exact at the magnitudes of the amended claim. -/
def diff_percent_float (outer inner : ℤ) : ℤ :=
  let avg : ℤ := (outer + inner).tdiv 2
  if avg = 0 then 0
  else ratTrunc (fl (fl (((inner - outer : ℤ) : ℚ) / (avg : ℚ)) * 100))

/-- The formula the specification states for `diff_percent`
(spec §3: `round(100 * (inner-outer)/avg)` when `avg > 0`, else 0,
with `avg` the average of `outer` and `inner`). -/
def diff_percent_claimed (outer inner : ℤ) : ℤ :=
  let avg : ℚ := ((outer : ℚ) + (inner : ℚ)) / 2
  if 0 < avg then round (100 * ((inner : ℚ) - (outer : ℚ)) / avg) else 0

/-- Embeds `LuxReading` (common.py:12-15); the timestamp is modelled as
rational seconds. -/
structure LuxReading where
  outer : ℤ
  inner : ℤ
  avg : ℤ
  diff : ℤ
  diff_percent : ℤ
  timestamp : ℚ
deriving DecidableEq

/-- Embeds `LuxAggregator._int_avg` (common.py:38-41):
`int(np.mean(field_values))`.  `np.mean` of an empty list is NaN and
`int(NaN)` raises, embedded as `none`. -/
def int_avg (vals : List ℤ) : Option ℤ :=
  match vals with
  | [] => none
  | _ => some (vals.sum.tdiv vals.length)

/-- Embeds `LuxAggregator._timestamp_avg` (common.py:43-46): the sum of the
offsets from a reference date divided by `len(dates)`, which raises
`ZeroDivisionError` on an empty aggregator, embedded as `none`. -/
def timestamp_avg (ts : List ℚ) : Option ℚ :=
  match ts with
  | [] => none
  | _ => some (ts.sum / ts.length)

/-- Embeds `LuxAggregator.average` (common.py:26-33): the field-wise integer
mean and the mean timestamp. -/
def LuxAggregator.average (l : List LuxReading) : Option LuxReading :=
  match int_avg (l.map LuxReading.outer), int_avg (l.map LuxReading.inner),
        int_avg (l.map LuxReading.avg), int_avg (l.map LuxReading.diff),
        int_avg (l.map LuxReading.diff_percent),
        timestamp_avg (l.map LuxReading.timestamp) with
  | some o, some i, some a, some d, some dp, some t => some ⟨o, i, a, d, dp, t⟩
  | _, _, _, _, _, _ => none

/-- The call `agg.average()` in state-passing form: the method body
(common.py:26-33) only reads `self._luxes` and never assigns to it, so the
stored readings are returned unchanged. -/
def LuxAggregator.average_call (l : List LuxReading) :
    Option LuxReading × List LuxReading :=
  (LuxAggregator.average l, l)

/-- Embeds `STEPS_PER_MOVE` (platform_driver.py:9): motor micro-steps per
movement unit. -/
def STEPS_PER_MOVE : ℕ := 7

/-- Embeds `MOTOR_VOLTAGE_CUTOFF` (platform_driver.py:11). -/
def MOTOR_VOLTAGE_CUTOFF : ℚ := 4

/-- Embeds `max_distance = int(Region.size() * 1.1)`
(platform_driver.py:111): `int(100 * 1.1) = 110`. -/
def max_distance : ℕ := 110

/-- Result of one call to `get_region`: the returned region, the possibly
resynchronized position, and whether the distance sensor was queried. -/
structure RegionCheck where
  region : Region
  pos : Option ℤ
  queried : Bool
deriving DecidableEq

/-- Embeds `MobilePlatform.get_region` (platform_driver.py:66-88) together
with `_reset_pos_to_outer_edge` (platform_driver.py:90-97).  `inRange` is
the answer `self.distance_sensor.is_in_range()` would give if queried.
The comparison `position is Region.OUTER_EDGE.value` is `position == 0`
for CPython small integers and false for `None`. -/
def get_region (pos : Option ℤ) (force inRange : Bool) : RegionCheck :=
  if pos = Region.value .INNER_EDGE then ⟨.INNER_EDGE, pos, false⟩
  else
    let check : Bool := pos.isNone || force
    let at_outer_edge : Bool :=
      if check then !inRange else decide (pos = Region.value .OUTER_EDGE)
    let pos1 : Option ℤ := if check && !inRange then Region.value .OUTER_EDGE else pos
    if at_outer_edge then ⟨.OUTER_EDGE, pos1, check⟩
    else if pos1.isSome then ⟨.MID, pos1, check⟩
    else ⟨.UNKNOWN, pos1, check⟩

/-- Embeds `MobilePlatform._voltage_low` (platform_driver.py:99-101):
`motor_voltage is not None and motor_voltage < MOTOR_VOLTAGE_CUTOFF`. -/
def voltage_low : Option ℚ → Bool
  | none => false
  | some v => decide (v < MOTOR_VOLTAGE_CUTOFF)

/-- The per-iteration external inputs of a `move_direction` call, indexed
by the loop counter `steps`: the distance-sensor answer, the voltage
reading of the status snapshot, and the continuation-predicate answer. -/
structure MoveEnv where
  inRange : ℕ → Bool
  voltage : ℕ → Option ℚ
  cont : ℕ → Bool

/-- The platform state `move_direction` mutates: the tracked position and
the total number of motor micro-steps commanded so far. -/
structure MoveState where
  pos : Option ℤ
  motorSteps : ℕ
deriving DecidableEq

/-- How a `move_direction` call ended, with the value of the loop counter
at exit.  `loopExhausted` is the `assert False` after the loop
(platform_driver.py:135). -/
inductive MoveResult where
  | batteryError (steps : ℕ)
  | stopped (steps : ℕ)
  | atEdge (steps : ℕ)
  | maxDist (steps : ℕ)
  | loopExhausted
deriving DecidableEq

/-- The loop counter at which a `move_direction` call exited, `none` for
the unreachable fall-through after the loop. -/
def MoveResult.stepsTaken : MoveResult → Option ℕ
  | .batteryError s => some s
  | .stopped s => some s
  | .atEdge s => some s
  | .maxDist s => some s
  | .loopExhausted => none

/-- Embeds the `for steps in range(max_distance+1)` loop of
`MobilePlatform.move_direction` (platform_driver.py:113-135).  The fuel
argument counts the iterations the `range` still allows; running out of
fuel is falling through the loop into `assert False`.  Each iteration
reads a status (forcing an edge check when moving OUTER, which may
resynchronize the position), then checks voltage, the continuation
predicate, the extreme edge, and the max-distance counter, and otherwise
commands `STEPS_PER_MOVE` motor steps and shifts a known position by
`direction.value`. -/
def moveLoop (env : MoveEnv) (d : Direction) :
    ℕ → ℕ → MoveState → MoveResult × MoveState
  | 0, _, st => (.loopExhausted, st)
  | fuel + 1, steps, st =>
    let rc := get_region st.pos (decide (d = .OUTER)) (env.inRange steps)
    let st1 : MoveState := { st with pos := rc.pos }
    if voltage_low (env.voltage steps) then (.batteryError steps, st1)
    else if !env.cont steps then (.stopped steps, st1)
    else if rc.region = d.extreme_edge then (.atEdge steps, st1)
    else if steps = max_distance then (.maxDist steps, st1)
    else
      moveLoop env d fuel (steps + 1)
        { pos := st1.pos.map (· + d.value),
          motorSteps := st1.motorSteps + STEPS_PER_MOVE }

/-- Embeds `MobilePlatform.move_direction` (platform_driver.py:103-135):
the loop runs for `steps` in `range(max_distance + 1)`. -/
def move_direction (env : MoveEnv) (d : Direction) (pos : Option ℤ) :
    MoveResult × MoveState :=
  moveLoop env d (max_distance + 1) 0 ⟨pos, 0⟩

/-- Number of non-self parameters in the Python definition of
`MobilePlatform.move_direction` (platform_driver.py:103-104):
`direction` and `should_continue`. -/
def move_direction_param_count : ℕ := 2

/-- Number of non-self positional arguments `ShadowAvoider._move` passes
at shadow_avoider.py:113: `direction`, `self._should_continue`, `steps`. -/
def shadow_avoider_move_arg_count : ℕ := 3

/-- Outcome of a dynamic Python call: a TypeError for an arity mismatch,
or the callee's result. -/
inductive PyCall (α : Type) where
  | typeError
  | ok (ret : α)
deriving DecidableEq

/-- Embeds the dynamic call `platform.move_direction(...)` with `nargs`
positional arguments.  CPython raises `TypeError` when the argument count
does not match the parameter count; otherwise the body runs and the
function returns `None` (every `return` in platform_driver.py:113-135 is
bare), modelled as the `Option ℤ` value `none` alongside the loop outcome
and final state. -/
def call_move_direction (nargs : ℕ) (env : MoveEnv) (d : Direction)
    (pos : Option ℤ) : PyCall (MoveResult × MoveState × Option ℤ) :=
  if nargs = move_direction_param_count then
    .ok ((move_direction env d pos).1, (move_direction env d pos).2, none)
  else .typeError

/-- Embeds `LightLevel` (shadow_avoider.py:22-27). -/
inductive LightLevel where
  | DARK
  | DIM
  | BRIGHT
  | OUTER_BRIGHTER
  | INNER_BRIGHTER
deriving DecidableEq

/-- The threshold configuration of a `ShadowAvoider`
(shadow_avoider.py:38-51). -/
structure AvoiderConfig where
  diff_percent_cutoff : ℤ
  dim_lux_threshold : ℤ := 300
  bright_lux_threshold : ℤ := 500

/-- A Python exception escaping an embedded call. -/
inductive PyErr where
  | typeError
  | assertError
deriving DecidableEq

/-- Embeds `ShadowAvoider._lux_compare` (shadow_avoider.py:58-72); the
`assert False, "Inconsistent lux reading"` branch is an `assertError`. -/
def lux_compare (cfg : AvoiderConfig) (lux : LuxReading) :
    Except PyErr LightLevel :=
  let intensity := max lux.outer lux.inner
  if intensity < cfg.dim_lux_threshold then .ok .DARK
  else if |lux.diff_percent| ≥ cfg.diff_percent_cutoff then
    if lux.outer > lux.inner then .ok .OUTER_BRIGHTER
    else if lux.inner > lux.outer then .ok .INNER_BRIGHTER
    else .error .assertError
  else if intensity < cfg.bright_lux_threshold then .ok .DIM
  else .ok .BRIGHT

/-- Embeds `ShadowAvoider._move` (shadow_avoider.py:91-117).  `prev` is
`self._prev_level` on entry; the result carries the Python return value
(`steps`) and `self._prev_level` on exit.  When the platform is already at
the edge matching `direction` the method returns 0 without moving and
without clearing `_prev_level`.  Otherwise it reaches
`self.platform.move_direction(direction, self._should_continue, steps)`,
a three-argument call of a two-parameter method; were the call to
succeed, its `None` result would be bound to `steps` and returned after
`_prev_level` is cleared. -/
def avoider_move (env : MoveEnv) (ppos : Option ℤ) (d : Direction)
    (region : Region) (prev : Option LightLevel) :
    Except PyErr (Option ℤ × Option LightLevel) :=
  if (d = .OUTER ∧ region = .OUTER_EDGE) ∨ (d = .INNER ∧ region = .INNER_EDGE) then
    .ok (some 0, prev)
  else
    match call_move_direction shadow_avoider_move_arg_count env d ppos with
    | .typeError => .error .typeError
    | .ok r => .ok (r.2.2, none)

/-- Embeds `ShadowAvoider._perform_action` (shadow_avoider.py:136-179).
`ppos` and `inRangeNow` feed the fresh `self.platform.get_region()` call;
`newAvg` and `newRegion` are the status snapshot taken after the
position-initialization move; `cur_region` is the status region passed in
by `perform_action`.  The result carries the returned bool and
`self._prev_level` on exit. -/
def avoider_perform_action (cfg : AvoiderConfig) (env : MoveEnv)
    (ppos : Option ℤ) (inRangeNow : Bool) (newAvg : ℤ) (newRegion : Region)
    (enabled : Bool) (prev : Option LightLevel) (lux : LuxReading)
    (cur_region : Region) : Except PyErr (Bool × Option LightLevel) :=
  if !enabled then .ok (false, prev)
  else
    let rc := get_region ppos false inRangeNow
    if rc.region = .UNKNOWN then
      match avoider_move env rc.pos .OUTER cur_region prev with
      | .error e => .error e
      | .ok (steps, prev1) =>
        if get_diff_percent newAvg lux.avg ≥ cfg.diff_percent_cutoff then
          match avoider_move env rc.pos .INNER newRegion prev1 with
          | .error e => .error e
          | .ok (_, prev2) =>
            -- the rollback passes `steps` on as the step limit
            let _ := steps
            .ok (true, prev2)
        else .ok (true, prev1)
    else
      match lux_compare cfg lux with
      | .error e => .error e
      | .ok light_level =>
        -- `light_level = self._prev_level = self._lux_compare(lux)`
        let prev1 : Option LightLevel := some light_level
        if light_level = .DARK then
          match avoider_move env rc.pos .INNER cur_region prev1 with
          | .error e => .error e
          | .ok (_, prev2) => .ok (true, prev2)
        else if light_level = .OUTER_BRIGHTER then
          match avoider_move env rc.pos .OUTER cur_region prev1 with
          | .error e => .error e
          | .ok (_, prev2) => .ok (true, prev2)
        else if light_level = .INNER_BRIGHTER then
          match avoider_move env rc.pos .INNER cur_region prev1 with
          | .error e => .error e
          | .ok (_, prev2) => .ok (true, prev2)
        else if light_level = .BRIGHT then
          if prev = some .INNER_BRIGHTER then
            match avoider_move env rc.pos .OUTER cur_region prev1 with
            | .error e => .error e
            | .ok (_, prev2) => .ok (true, prev2)
          else if prev = some .DARK ∨ prev = some .DIM then
            match avoider_move env rc.pos .OUTER cur_region prev1 with
            | .error e => .error e
            | .ok (_, prev2) => .ok (true, prev2)
          else .ok (true, prev1)
        else
          -- light_level is DIM: no-op hysteresis band
          .ok (true, prev1)

/-- The internal state of a `ButtonHandler`
(button_handler.py:36-38). -/
structure ButtonHandlerState where
  hold_mode : Bool
  direction_commanded : Option Direction
deriving DecidableEq

/-- Embeds the state initialization in `ButtonHandler.__init__`
(button_handler.py:36-38): `self._hold_mode = False` and
`self._direction_commanded = None`. -/
def buttonHandler_init : ButtonHandlerState :=
  { hold_mode := false, direction_commanded := none }

/-- What one controller does when `perform_action(status)` is tried
during a control-loop tick. -/
inductive ControllerStep where
  | acted
  | passed
  | raisedBatteryError
deriving DecidableEq

/-- Outcome of the dispatch portion of one `control_loop` tick:
either the `try` block completed (with the number of controllers invoked),
or a `BatteryError` was caught and `"BATT"` shown on the error-output
path.  In both cases the loop sleeps and continues with the next tick. -/
inductive TickOutcome where
  | normal (invoked : ℕ)
  | faultDisplayed (invoked : ℕ)
deriving DecidableEq

/-- Embeds the per-tick controller dispatch of `control_loop`
(controller.py:39-54): inside `try`, each controller is tried in priority
order until one returns true; a raised `BatteryError` escapes the `for`,
is caught, and is reported via `debug_panel.output_error("BATT")`. -/
def run_tick : List ControllerStep → TickOutcome
  | [] => .normal 0
  | c :: cs =>
    match c with
    | .acted => .normal 1
    | .raisedBatteryError => .faultDisplayed 1
    | .passed =>
      match run_tick cs with
      | .normal n => .normal (n + 1)
      | .faultDisplayed n => .faultDisplayed (n + 1)

lemma ratTrunc_intCast_div_pos (m a : ℤ) (ha : 0 < a) :
    ratTrunc ((m : ℚ) / (a : ℚ)) = m.tdiv a := by
  obtain ⟨d, rfl⟩ : ∃ d : ℕ, a = (d : ℤ) := ⟨a.toNat, (Int.toNat_of_nonneg ha.le).symm⟩
  have hdQ : ((d : ℤ) : ℚ) = (d : ℚ) := by push_cast; ring
  have haQ : (0 : ℚ) < (d : ℚ) := by exact_mod_cast ha
  rcases le_or_lt 0 m with hm | hm
  · have hq : 0 ≤ (m : ℚ) / ((d : ℤ) : ℚ) := by
      rw [hdQ]; exact div_nonneg (by exact_mod_cast hm) haQ.le
    rw [ratTrunc, if_pos hq, hdQ, Rat.floor_intCast_div_natCast]
    exact (Int.tdiv_eq_ediv hm (by exact_mod_cast d.zero_le)).symm
  · have hq : (m : ℚ) / ((d : ℤ) : ℚ) < 0 := by
      rw [hdQ]; exact div_neg_of_neg_of_pos (by exact_mod_cast hm) haQ
    rw [ratTrunc, if_neg (not_le.mpr hq)]
    rw [show (m : ℚ) / ((d : ℤ) : ℚ) = -(((-m : ℤ) : ℚ) / ((d : ℚ))) by
      rw [hdQ]; push_cast; ring]
    rw [Int.ceil_neg, Rat.floor_intCast_div_natCast]
    rw [show m.tdiv (d : ℤ) = -((-m).tdiv (d : ℤ)) by rw [Int.neg_tdiv, neg_neg]]
    rw [Int.tdiv_eq_ediv (by omega) (by exact_mod_cast d.zero_le)]

lemma ratTrunc_intCast_div (m a : ℤ) (ha : a ≠ 0) :
    ratTrunc ((m : ℚ) / (a : ℚ)) = m.tdiv a := by
  rcases ha.lt_or_lt with h | h
  · rw [show (m : ℚ) / (a : ℚ) = ((-m : ℤ) : ℚ) / ((-a : ℤ) : ℚ) by
      push_cast; rw [neg_div_neg_eq]]
    rw [ratTrunc_intCast_div_pos (-m) (-a) (by omega), Int.neg_tdiv_neg]
  · exact ratTrunc_intCast_div_pos m a h

lemma roundEven_intCast (n : ℤ) : roundEven (n : ℚ) = n := by
  simp [roundEven]

lemma roundEven_eq_of_lt_half (q : ℚ) (n : ℤ) (h1 : (n : ℚ) ≤ q)
    (h2 : q < (n : ℚ) + 1/2) : roundEven q = n := by
  have hf : ⌊q⌋ = n := by
    rw [Int.floor_eq_iff]
    exact ⟨h1, by linarith⟩
  simp only [roundEven, hf]
  rw [if_pos (by linarith)]

lemma int_log_eq_of {e : ℤ} {q : ℚ} (h0 : 0 < q) (h1 : (2 : ℚ) ^ e ≤ q)
    (h2 : q < (2 : ℚ) ^ (e + 1)) : Int.log 2 q = e := by
  have hle : e ≤ Int.log 2 q := by
    rw [← Int.zpow_le_iff_le_log one_lt_two h0]
    exact_mod_cast h1
  have hge : Int.log 2 q ≤ e := by
    by_contra hc
    push_neg at hc
    have h3 : e + 1 ≤ Int.log 2 q := hc
    rw [← Int.zpow_le_iff_le_log one_lt_two h0] at h3
    have h4 : (2 : ℚ) ^ (e + 1) ≤ q := by exact_mod_cast h3
    linarith
  omega

lemma fl_eq_of {q : ℚ} {m e : ℤ} (hq : q ≠ 0) (hlog : Int.log 2 |q| = e + 52)
    (hm : roundEven (q / (2 : ℚ) ^ e) = m) : fl q = (m : ℚ) * (2 : ℚ) ^ e := by
  simp only [fl, exp2, hlog]
  rw [show e + 52 - 52 = e from by omega, if_neg hq, hm]

lemma fl_half_intCast {k : ℤ} (hk : k ≠ 0) (hb : |k| < 2 ^ 53) :
    fl ((k : ℚ) / 2) = (k : ℚ) / 2 := by
  have hkQ : (k : ℚ) ≠ 0 := Int.cast_ne_zero.mpr hk
  have hq0 : (k : ℚ) / 2 ≠ 0 := div_ne_zero hkQ two_ne_zero
  have habs : |(k : ℚ) / 2| = (|k| : ℤ) / 2 := by
    rw [abs_div, Int.cast_abs]
    norm_num
  set L := Int.log 2 |(k : ℚ) / 2| with hL
  have hLle : L ≤ 51 := by
    by_contra hc
    push_neg at hc
    have h52 : (52 : ℤ) ≤ L := hc
    rw [hL, ← Int.zpow_le_iff_le_log one_lt_two (abs_pos.mpr hq0)] at h52
    have hlt : |(k : ℚ) / 2| < ((2 : ℕ) : ℚ) ^ (52 : ℤ) := by
      rw [habs]
      have : ((|k| : ℤ) : ℚ) < 2 ^ 53 := by exact_mod_cast hb
      norm_num
      linarith
    linarith
  obtain ⟨j, hj⟩ := Int.eq_ofNat_of_zero_le (show (0 : ℤ) ≤ 51 - L by omega)
  have hmant : (k : ℚ) / 2 / (2 : ℚ) ^ (L - 52) = ((k * 2 ^ j : ℤ) : ℚ) := by
    rw [div_div, show (2 : ℚ) * (2 : ℚ) ^ (L - 52) = (2 : ℚ) ^ (L - 51) by
      rw [← zpow_one_add₀ two_ne_zero]; congr 1; omega]
    rw [div_eq_mul_inv, ← zpow_neg, show -(L - 51) = ((j : ℤ)) from by omega]
    push_cast [zpow_natCast]
    ring
  have hfl := fl_eq_of hq0 (show Int.log 2 |(k : ℚ) / 2| = (L - 52) + 52 by omega)
    (by rw [hmant, roundEven_intCast])
  rw [hfl, ← hmant, div_mul_cancel₀]
  exact zpow_ne_zero _ two_ne_zero

lemma fl_intCast {n : ℤ} (hn : |n| < 2 ^ 52) : fl (n : ℚ) = n := by
  rcases eq_or_ne n 0 with rfl | h0
  · simp [fl]
  · have habs : |2 * n| = 2 * |n| := by rw [abs_mul]; norm_num
    have h := fl_half_intCast (k := 2 * n) (by omega) (by omega)
    have h2 : ((2 * n : ℤ) : ℚ) / 2 = (n : ℚ) := by push_cast; ring
    rw [h2] at h
    exact h

/-- Sanity check of the binary64 model against CPython: at (86, 115) the
exact quotient is 29/100, but the double quotient rounds to slightly
below 0.29 and the product to slightly below 29, so `int(diff/avg * 100)`
yields 28 where exact rational arithmetic would give 29 — the model
reproduces the double-rounding artifact of the real program. -/
lemma get_diff_percent_double_rounding : get_diff_percent 86 115 = 28 := by
  have e86 : fl (86 : ℚ) = 86 := by simpa using fl_intCast (n := 86) (by norm_num)
  have e115 : fl (115 : ℚ) = 115 := by simpa using fl_intCast (n := 115) (by norm_num)
  have e201 : fl (201 : ℚ) = 201 := by simpa using fl_intCast (n := 201) (by norm_num)
  have e1005 : fl ((201 : ℚ) / 2) = 201 / 2 := by
    simpa using fl_half_intCast (k := 201) (by norm_num) (by norm_num)
  have eavg : ratTrunc ((201 : ℚ) / 2) = 100 := by
    rw [ratTrunc, if_pos (by norm_num), Int.floor_eq_iff]
    norm_num
  have ediv : fl ((29 : ℚ) / 100) = 5224175567749775 * (2 : ℚ) ^ (-54 : ℤ) := by
    have habs : |(29 : ℚ) / 100| = 29 / 100 := by
      rw [abs_of_pos]
      norm_num
    apply fl_eq_of (by norm_num)
    · rw [habs, show (-54 : ℤ) + 52 = -2 from by norm_num]
      apply int_log_eq_of (by norm_num) <;> norm_num
    · rw [show ((29 : ℚ) / 100) / (2 : ℚ) ^ (-54 : ℤ) = 522417556774977536 / 100 by
        rw [zpow_neg]; norm_num]
      apply roundEven_eq_of_lt_half <;> norm_num
  have emul : fl ((130604389193744375 : ℚ) / 4503599627370496) =
      8162774324609023 * (2 : ℚ) ^ (-48 : ℤ) := by
    have habs : |(130604389193744375 : ℚ) / 4503599627370496| =
        130604389193744375 / 4503599627370496 := by
      rw [abs_of_pos]
      norm_num
    apply fl_eq_of (by norm_num)
    · rw [habs, show (-48 : ℤ) + 52 = 4 from by norm_num]
      apply int_log_eq_of (by norm_num) <;> norm_num
    · rw [show ((130604389193744375 : ℚ) / 4503599627370496) / (2 : ℚ) ^ (-48 : ℤ) =
          130604389193744375 / 16 by rw [zpow_neg]; norm_num]
      apply roundEven_eq_of_lt_half <;> norm_num
  have efinal : ratTrunc (8162774324609023 * (2 : ℚ) ^ (-48 : ℤ)) = 28 := by
    rw [ratTrunc, if_pos (by rw [zpow_neg]; norm_num),
      show (8162774324609023 : ℚ) * (2 : ℚ) ^ (-48 : ℤ) =
        8162774324609023 / 281474976710656 by rw [zpow_neg]; norm_num,
      Int.floor_eq_iff]
    norm_num
  simp only [get_diff_percent]
  norm_num [e86, e115]
  rw [e201, e1005, eavg]
  norm_num [ediv]
  rw [emul, efinal]

lemma get_region_pos_cases (pos : Option ℤ) (f r : Bool) :
    (get_region pos f r).pos = pos ∨ (get_region pos f r).pos = some 0 := by
  unfold get_region
  cases pos <;> cases f <;> cases r <;>
    split_ifs <;> simp_all [Region.value] <;>
    split_ifs <;> simp_all

lemma get_region_some_pos (p : ℤ) (f r : Bool) :
    ∃ q, (get_region (some p) f r).pos = some q ∧ (q = p ∨ q = 0) := by
  rcases get_region_pos_cases (some p) f r with h | h
  · exact ⟨p, h, Or.inl rfl⟩
  · exact ⟨0, h, Or.inr rfl⟩

lemma get_region_inner_iff (p : ℤ) (f r : Bool) :
    (get_region (some p) f r).region = Region.INNER_EDGE ↔ p = 100 := by
  unfold get_region
  cases f <;> cases r <;>
    split_ifs <;> simp_all [Region.value] <;>
    split_ifs <;> simp_all

lemma moveLoop_exits (env : MoveEnv) (d : Direction) :
    ∀ fuel steps st, steps + fuel = max_distance + 1 → steps ≤ max_distance →
      ∃ k, (moveLoop env d fuel steps st).1.stepsTaken = some k ∧ k ≤ max_distance := by
  intro fuel
  induction fuel with
  | zero =>
    intro steps st h hle
    exact absurd h (by omega)
  | succ n ih =>
    intro steps st h hle
    simp only [moveLoop]
    split_ifs with h1 h2 h3 h4
    · exact ⟨steps, rfl, hle⟩
    · exact ⟨steps, rfl, hle⟩
    · exact ⟨steps, rfl, hle⟩
    · exact ⟨steps, rfl, hle⟩
    · exact ih (steps + 1) _ (by omega) (by omega)

lemma moveLoop_pos_bounds (env : MoveEnv) (d : Direction) :
    ∀ fuel steps (p : ℤ) (ms : ℕ),
      steps + fuel = max_distance + 1 → steps ≤ max_distance →
      -(steps : ℤ) ≤ p → p ≤ 100 →
      ∃ p', (moveLoop env d fuel steps ⟨some p, ms⟩).2.pos = some p' ∧
        -(max_distance : ℤ) ≤ p' ∧ p' ≤ 100 := by
  intro fuel
  induction fuel with
  | zero =>
    intro steps p ms h hle _ _
    exact absurd h (by omega)
  | succ n ih =>
    intro steps p ms h hle hlow hup
    have hmd : max_distance = 110 := rfl
    obtain ⟨q, hq, hq01⟩ :=
      get_region_some_pos p (decide (d = .OUTER)) (env.inRange steps)
    have hqlow : -(steps : ℤ) ≤ q := by rcases hq01 with rfl | rfl <;> omega
    have hqup : q ≤ 100 := by rcases hq01 with rfl | rfl <;> omega
    simp only [moveLoop, hq]
    split_ifs with h1 h2 h3 h4
    · exact ⟨q, rfl, by omega, hqup⟩
    · exact ⟨q, rfl, by omega, hqup⟩
    · exact ⟨q, rfl, by omega, hqup⟩
    · exact ⟨q, rfl, by omega, hqup⟩
    · have hnext_up : q + d.value ≤ 100 := by
        cases d with
        | OUTER => simp [Direction.value]; omega
        | INNER =>
          have hne : p ≠ 100 := by
            intro hp
            exact h3 (by
              rw [Direction.extreme_edge, get_region_inner_iff]
              exact hp)
          have : q ≠ 100 := by rcases hq01 with rfl | rfl <;> omega
          simp [Direction.value]
          omega
      have hnext_low : -((steps + 1 : ℕ) : ℤ) ≤ q + d.value := by
        cases d <;> simp [Direction.value] <;> omega
      simpa using ih (steps + 1) (q + d.value) (ms + STEPS_PER_MOVE)
        (by omega) (by omega) hnext_low hnext_up

lemma moveLoop_battery (env : MoveEnv) (d : Direction) (n steps : ℕ) (st : MoveState)
    (h : voltage_low (env.voltage steps) = true) :
    moveLoop env d (n + 1) steps st =
      (.batteryError steps,
        { st with pos := (get_region st.pos (decide (d = .OUTER)) (env.inRange steps)).pos }) := by
  simp only [moveLoop]
  rw [if_pos h]

/-- C1: the claim says `move_direction(direction, should_continue,
step_limit=None)` returns the number of steps taken and accepts an
optional step limit.  In the code the method has exactly two non-self
parameters and returns `None`: the three-argument call made by
`ShadowAvoider._move` (shadow_avoider.py:113) raises `TypeError`, and a
well-formed two-argument call returns `None`, never a step count. -/
theorem C1_move_direction_call_contract :
    ∀ (env : MoveEnv) (d : Direction) (pos : Option ℤ),
      call_move_direction shadow_avoider_move_arg_count env d pos = PyCall.typeError ∧
      call_move_direction move_direction_param_count env d pos =
        PyCall.ok ((move_direction env d pos).1, (move_direction env d pos).2, none) :=
  fun _ _ _ => ⟨rfl, rfl⟩

/-- C2: in the claimed scenario (enabled, region known and not at the
outer edge, `previous_level = INNER_BRIGHTER`, newly classified level
`BRIGHT`) the evaluation does not issue one OUTER move and clear
`previous_level`: it reaches the three-argument
`platform.move_direction` call and raises `TypeError`. -/
theorem C2_shadow_passed_scenario_crashes :
    avoider_perform_action ⟨10, 300, 500⟩
      ⟨fun _ => true, fun _ => none, fun _ => true⟩
      (some 50) true 0 Region.MID true (some LightLevel.INNER_BRIGHTER)
      ⟨600, 600, 600, 0, 0, 0⟩ Region.MID = Except.error PyErr.typeError := rfl

/-- C3 counterexample: with a low first voltage reading, moving OUTER
from position 50 while the boundary sensor reports at-edge, the call
signals the battery fault on the first iteration with zero motor steps,
but the tracked position is resynchronized to 0 — it does not stay 50. -/
theorem C3_position_resync_counterexample :
    move_direction ⟨fun _ => false, fun _ => some 3, fun _ => true⟩
        Direction.OUTER (some 50) = (MoveResult.batteryError 0, ⟨some 0, 0⟩) ∧
      (move_direction ⟨fun _ => false, fun _ => some 3, fun _ => true⟩
        Direction.OUTER (some 50)).2.pos ≠ some 50 :=
  ⟨by decide, by decide⟩

/-- C3 amended: if the first status read has `motor_voltage` present and
below `MOTOR_VOLTAGE_CUTOFF`, `move_direction` signals a battery fault on
the very first iteration and commands zero motor steps; the tracked
position is never changed by stepping, but the boundary check inside the
initial status read may resynchronize it to 0. -/
theorem C3_battery_fault_first_iteration :
    ∀ (env : MoveEnv) (d : Direction) (pos : Option ℤ),
      voltage_low (env.voltage 0) = true →
      (move_direction env d pos).1 = MoveResult.batteryError 0 ∧
      (move_direction env d pos).2.motorSteps = 0 ∧
      ((move_direction env d pos).2.pos = pos ∨
        (move_direction env d pos).2.pos = some 0) := by
  intro env d pos h
  unfold move_direction
  rw [moveLoop_battery env d max_distance 0 ⟨pos, 0⟩ h]
  exact ⟨rfl, rfl, get_region_pos_cases pos _ _⟩

/-- Witness for C3 at a concrete input: voltage 3V, moving INNER from
position 5. -/
theorem C3_battery_fault_first_iteration_witness :
    voltage_low ((⟨fun _ => true, fun _ => some 3, fun _ => true⟩ : MoveEnv).voltage 0) = true ∧
    ((move_direction ⟨fun _ => true, fun _ => some 3, fun _ => true⟩
        Direction.INNER (some 5)).1 = MoveResult.batteryError 0 ∧
      (move_direction ⟨fun _ => true, fun _ => some 3, fun _ => true⟩
        Direction.INNER (some 5)).2.motorSteps = 0 ∧
      ((move_direction ⟨fun _ => true, fun _ => some 3, fun _ => true⟩
          Direction.INNER (some 5)).2.pos = some 5 ∨
        (move_direction ⟨fun _ => true, fun _ => some 3, fun _ => true⟩
          Direction.INNER (some 5)).2.pos = some 0)) :=
  ⟨by decide, C3_battery_fault_first_iteration _ _ _ (by decide)⟩

/-- C4: every `move_direction` call exits the loop through one of the four
stop conditions (the exit index is defined and at most `max_distance`,
i.e. within `ceil(TRACK_SIZE*1.1)+1 = 111` iterations), so the
`assert False` after the loop is unreachable — for every environment,
including a predicate that always continues and a sensor that never
reports the edge. -/
theorem C4_move_direction_terminates :
    ∀ (env : MoveEnv) (d : Direction) (pos : Option ℤ),
      (move_direction env d pos).1 ≠ MoveResult.loopExhausted ∧
      ∃ k, (move_direction env d pos).1.stepsTaken = some k ∧ k ≤ max_distance := by
  intro env d pos
  obtain ⟨k, hk, hle⟩ :=
    moveLoop_exits env d (max_distance + 1) 0 ⟨pos, 0⟩ rfl (Nat.zero_le _)
  rw [show moveLoop env d (max_distance + 1) 0 ⟨pos, 0⟩ = move_direction env d pos
    from rfl] at hk
  refine ⟨fun hcontra => ?_, k, hk, hle⟩
  rw [hcontra] at hk
  simp [MoveResult.stepsTaken] at hk

/-- C5 counterexample: moving OUTER from position 0 with a boundary
sensor that always answers "in range" (not at the edge) and a predicate
that always continues drives the tracked position down to -110, so the
position does go below 0. -/
theorem C5_position_below_zero_counterexample :
    (move_direction ⟨fun _ => true, fun _ => none, fun _ => true⟩
        Direction.OUTER (some 0)).2.pos = some (-110) ∧ (-110 : ℤ) < 0 :=
  ⟨by decide, by decide⟩

/-- C5 amended: from a known position in `[-steps, 100]` at any loop
iteration (hence from `[0, TRACK_SIZE]` at entry), the tracked position
stays at most `TRACK_SIZE = 100` at every later iteration and never falls
below `-max_distance = -110`; it cannot be kept at or above 0 when the
boundary sensor keeps denying the outer edge. -/
theorem C5_position_bounds :
    ∀ (env : MoveEnv) (d : Direction) (fuel steps : ℕ) (p : ℤ) (ms : ℕ),
      steps + fuel = max_distance + 1 → steps ≤ max_distance →
      -(steps : ℤ) ≤ p → p ≤ 100 →
      ∃ p', (moveLoop env d fuel steps ⟨some p, ms⟩).2.pos = some p' ∧
        -(max_distance : ℤ) ≤ p' ∧ p' ≤ 100 :=
  fun env d fuel steps p ms => moveLoop_pos_bounds env d fuel steps p ms

/-- Witness for C5 at the entry state of a `move_direction` call: moving
OUTER from position 50. -/
theorem C5_position_bounds_witness :
    (0 + (max_distance + 1) = max_distance + 1 ∧ 0 ≤ max_distance ∧
      -((0 : ℕ) : ℤ) ≤ 50 ∧ (50 : ℤ) ≤ 100) ∧
    ∃ p', (moveLoop ⟨fun _ => true, fun _ => none, fun _ => true⟩
        Direction.OUTER (max_distance + 1) 0 ⟨some 50, 0⟩).2.pos = some p' ∧
      -(max_distance : ℤ) ≤ p' ∧ p' ≤ 100 :=
  ⟨⟨rfl, Nat.zero_le _, by decide, by decide⟩,
    C5_position_bounds _ _ _ _ _ _ rfl (Nat.zero_le _) (by decide) (by decide)⟩

/-- C6: for positions in `[0, TRACK_SIZE]` and any sensor state,
`get_region` returns `INNER_EDGE` iff the position is `TRACK_SIZE = 100`,
and in that case it returns without querying the boundary sensor. -/
theorem C6_get_region_inner_edge :
    ∀ (p : ℤ) (force inRange : Bool), 0 ≤ p → p ≤ 100 →
      ((get_region (some p) force inRange).region = Region.INNER_EDGE ↔ p = 100) ∧
      (p = 100 → (get_region (some p) force inRange).queried = false) := by
  intro p force inRange _ _
  refine ⟨get_region_inner_iff p force inRange, fun hp => ?_⟩
  subst hp
  rfl

/-- Witness for C6 at position 100 with a forced check. -/
theorem C6_get_region_inner_edge_witness :
    ((0 : ℤ) ≤ 100 ∧ (100 : ℤ) ≤ 100) ∧
    (((get_region (some 100) true true).region = Region.INNER_EDGE ↔ (100 : ℤ) = 100) ∧
      ((100 : ℤ) = 100 → (get_region (some 100) true true).queried = false)) :=
  ⟨⟨by decide, by decide⟩, C6_get_region_inner_edge 100 true true (by decide) (by decide)⟩

/-- C7 counterexample: at readings (outer, inner) = (6, 7) the code
truncates the double value 16.666… to 16 (with the truncated average 6),
while the claimed formula `round(100 * (inner-outer)/avg)` with the exact
average 6.5 gives 15. -/
theorem C7_diff_percent_round_counterexample :
    get_diff_percent 6 7 = 16 ∧ diff_percent_claimed 6 7 = 15 ∧ (16 : ℤ) ≠ 15 := by
  refine ⟨?_, ?_, by decide⟩
  · have e6 : fl (6 : ℚ) = 6 := by simpa using fl_intCast (n := 6) (by norm_num)
    have e7 : fl (7 : ℚ) = 7 := by simpa using fl_intCast (n := 7) (by norm_num)
    have e13 : fl (13 : ℚ) = 13 := by simpa using fl_intCast (n := 13) (by norm_num)
    have e65 : fl ((13 : ℚ) / 2) = 13 / 2 := by
      simpa using fl_half_intCast (k := 13) (by norm_num) (by norm_num)
    have eavg : ratTrunc ((13 : ℚ) / 2) = 6 := by
      rw [ratTrunc, if_pos (by norm_num), Int.floor_eq_iff]
      norm_num
    have ediv : fl ((1 : ℚ) / 6) = 6004799503160661 * (2 : ℚ) ^ (-55 : ℤ) := by
      have habs : |(1 : ℚ) / 6| = 1 / 6 := by
        rw [abs_of_pos]
        norm_num
      apply fl_eq_of (by norm_num)
      · rw [habs, show (-55 : ℤ) + 52 = -3 from by norm_num]
        apply int_log_eq_of (by norm_num) <;> norm_num
      · rw [show ((1 : ℚ) / 6) / (2 : ℚ) ^ (-55 : ℤ) = 36028797018963968 / 6 by
          rw [zpow_neg]; norm_num]
        apply roundEven_eq_of_lt_half <;> norm_num
    have emul : fl ((150119987579016525 : ℚ) / 9007199254740992) =
        4691249611844266 * (2 : ℚ) ^ (-48 : ℤ) := by
      have habs : |(150119987579016525 : ℚ) / 9007199254740992| =
          150119987579016525 / 9007199254740992 := by
        rw [abs_of_pos]
        norm_num
      apply fl_eq_of (by norm_num)
      · rw [habs, show (-48 : ℤ) + 52 = 4 from by norm_num]
        apply int_log_eq_of (by norm_num) <;> norm_num
      · rw [show ((150119987579016525 : ℚ) / 9007199254740992) / (2 : ℚ) ^ (-48 : ℤ) =
            150119987579016525 / 32 by rw [zpow_neg]; norm_num]
        apply roundEven_eq_of_lt_half <;> norm_num
    have efinal : ratTrunc (4691249611844266 * (2 : ℚ) ^ (-48 : ℤ)) = 16 := by
      rw [ratTrunc, if_pos (by rw [zpow_neg]; norm_num),
        show (4691249611844266 : ℚ) * (2 : ℚ) ^ (-48 : ℤ) =
          4691249611844266 / 281474976710656 by rw [zpow_neg]; norm_num,
        Int.floor_eq_iff]
      norm_num
    simp only [get_diff_percent]
    norm_num [e6, e7]
    rw [e13, e65, eavg]
    norm_num [ediv]
    rw [emul, efinal]
  · unfold diff_percent_claimed
    norm_num [round_eq]

/-- C7 amended: for readings of magnitude at most `2^50` (far above any
lux value), `diff_percent` equals the toward-zero truncation of the
correctly rounded binary64 product `fl(fl((inner - outer)/avg) * 100)`,
where `avg` is the toward-zero truncation of `(outer + inner)/2` — the
float averaging is exact at these magnitudes — whenever that `avg` is
nonzero, and 0 otherwise; the value is obtained by truncation, not
rounding. -/
theorem C7_diff_percent_truncation :
    ∀ outer inner : ℤ, |outer| ≤ 2 ^ 50 → |inner| ≤ 2 ^ 50 →
      get_diff_percent outer inner = diff_percent_float outer inner := by
  intro o i ho hi
  have h1 : fl (o : ℚ) = o := fl_intCast (by omega)
  have h2 : fl (i : ℚ) = i := fl_intCast (by omega)
  have hsum : |o + i| ≤ 2 ^ 51 := by
    calc |o + i| ≤ |o| + |i| := abs_add o i
    _ ≤ 2 ^ 51 := by omega
  have h3 : fl ((o : ℚ) + (i : ℚ)) = ((o + i : ℤ) : ℚ) := by
    rw [show (o : ℚ) + (i : ℚ) = ((o + i : ℤ) : ℚ) by push_cast; ring]
    exact fl_intCast (by omega)
  have h4 : fl (((o + i : ℤ) : ℚ) / 2) = ((o + i : ℤ) : ℚ) / 2 := by
    rcases eq_or_ne (o + i) 0 with hz | hz
    · rw [hz]
      simp [fl]
    · exact fl_half_intCast hz (by omega)
  have h5 : ratTrunc (((o + i : ℤ) : ℚ) / 2) = (o + i).tdiv 2 := by
    rw [show (2 : ℚ) = ((2 : ℤ) : ℚ) by norm_num]
    exact ratTrunc_intCast_div _ _ (by norm_num)
  simp only [get_diff_percent, diff_percent_float, h1, h2, h3, h4, h5]
  by_cases h : (o + i).tdiv 2 = 0
  · simp [h]
  · simp [h]

/-- Witness for C7 at the counterexample's own readings (6, 7). -/
theorem C7_diff_percent_truncation_witness :
    (|(6 : ℤ)| ≤ 2 ^ 50 ∧ |(7 : ℤ)| ≤ 2 ^ 50) ∧
      get_diff_percent 6 7 = diff_percent_float 6 7 :=
  ⟨⟨by decide, by decide⟩, C7_diff_percent_truncation 6 7 (by decide) (by decide)⟩

/-- C8 counterexample: a newly constructed `ButtonHandler` does not start
in hold mode — `__init__` sets `self._hold_mode = False`. -/
theorem C8_hold_mode_default_counterexample :
    ¬buttonHandler_init.hold_mode = true := by decide

/-- C8 amended: a newly constructed `ButtonHandler` starts in press mode
(`hold_mode` false by default) and with no direction commanded. -/
theorem C8_button_handler_init :
    buttonHandler_init.hold_mode = false ∧
      buttonHandler_init.direction_commanded = none :=
  ⟨rfl, rfl⟩

/-- C9: if the controllers before some controller all pass and that
controller raises a battery fault, the tick invokes exactly the
controllers up to and including it (skipping all lower-priority ones),
and the fault is caught and shown on the error-output path — the tick
function returns an outcome instead of crashing, so the loop continues
with the next tick. -/
theorem C9_battery_fault_short_circuits :
    ∀ (pre rest : List ControllerStep), (∀ c ∈ pre, c = ControllerStep.passed) →
      run_tick (pre ++ ControllerStep.raisedBatteryError :: rest) =
        TickOutcome.faultDisplayed (pre.length + 1) := by
  intro pre rest h
  induction pre with
  | nil => rfl
  | cons c cs ih =>
    have hc : c = ControllerStep.passed := h c (List.mem_cons_self c cs)
    subst hc
    have hr := ih (fun x hx => h x (List.mem_cons_of_mem _ hx))
    simp only [List.cons_append, run_tick, List.append_eq, hr, List.length_cons]

/-- Witness for C9: two passing controllers, then a battery fault, then
a controller that is skipped. -/
theorem C9_battery_fault_short_circuits_witness :
    (∀ c ∈ [ControllerStep.passed, ControllerStep.passed], c = ControllerStep.passed) ∧
    run_tick ([ControllerStep.passed, ControllerStep.passed] ++
        ControllerStep.raisedBatteryError :: [ControllerStep.acted]) =
      TickOutcome.faultDisplayed
        ([ControllerStep.passed, ControllerStep.passed].length + 1) :=
  ⟨by decide, C9_battery_fault_short_circuits _ _ (by decide)⟩

/-- C10: `LuxAggregator.average()` is defined exactly on non-empty
aggregators — it fails (empty-mean/zero-division) iff the aggregator has
length 0 — and the call leaves the stored readings (hence `len()`)
unchanged. -/
theorem C10_aggregator_average_defined :
    ∀ l : List LuxReading,
      ((LuxAggregator.average_call l).1.isSome ↔ l.length ≠ 0) ∧
      (LuxAggregator.average_call l).2 = l := by
  intro l
  refine ⟨?_, rfl⟩
  cases l with
  | nil => simp [LuxAggregator.average_call, LuxAggregator.average, int_avg, timestamp_avg]
  | cons x xs =>
    simp [LuxAggregator.average_call, LuxAggregator.average, int_avg, timestamp_avg]

end Plantmobile
